import Mathlib

/-!
A shallow embedding in Lean 4 of the two client scripts `src/apex.py` and
`src/deposit.py` (an ApeX Omni balance checker and a deposit script), together
with theorems settling the claims of the specification against the code.

Modelling conventions:
* Byte strings are `List Nat` with entries below 256; UTF-8 encoding of a
  `String` uses Lean's `String.toUTF8`.
* SHA-256, HMAC-SHA256 and standard base64 are implemented in full, so that
  `_generate_signature` is embedded end-to-end (the Python code calls the
  standard-library `hmac`, `hashlib` and `base64` modules; the Lean versions
  below implement the same FIPS 180-4 / RFC 2104 / RFC 4648 algorithms).
* Python `float` values arising from JSON fields are modelled as rationals
  (`ℚ`); the numeric literals in every claim are exactly representable, so the
  rational model agrees with IEEE double arithmetic on all inputs considered.
* Python exceptions are modelled with `Except String`; a raised exception is
  an `.error` carrying the exception text.
-/

/-! ### Word-level helpers for SHA-256 (32-bit arithmetic on `Nat`) -/

/-- Truncate to a 32-bit word. -/
def w32 (n : Nat) : Nat := n % 4294967296

/-- Right rotation of a 32-bit word by `n` bits. -/
def rotr32 (n x : Nat) : Nat := w32 ((x >>> n) ||| (x <<< (32 - n)))

/-- The 64 SHA-256 round constants (FIPS 180-4 §4.2.2). -/
def shaK : List Nat :=
  [1116352408, 1899447441, 3049323471, 3921009573, 961987163,
   1508970993, 2453635748, 2870763221, 3624381080, 310598401,
   607225278, 1426881987, 1925078388, 2162078206, 2614888103,
   3248222580, 3835390401, 4022224774, 264347078, 604807628,
   770255983, 1249150122, 1555081692, 1996064986, 2554220882,
   2821834349, 2952996808, 3210313671, 3336571891, 3584528711,
   113926993, 338241895, 666307205, 773529912, 1294757372,
   1396182291, 1695183700, 1986661051, 2177026350, 2456956037,
   2730485921, 2820302411, 3259730800, 3345764771, 3516065817,
   3600352804, 4094571909, 275423344, 430227734, 506948616,
   659060556, 883997877, 958139571, 1322822218, 1537002063,
   1747873779, 1955562222, 2024104815, 2227730452, 2361852424,
   2428436474, 2756734187, 3204031479, 3329325298]

/-- The initial SHA-256 hash state (FIPS 180-4 §5.3.3). -/
def shaH0 : List Nat :=
  [1779033703, 3144134277, 1013904242, 2773480762,
   1359893119, 2600822924, 528734635, 1541459225]

/-- Group a byte list into big-endian 32-bit words (four bytes per word). -/
def bytesToWords : List Nat → List Nat
  | a :: b :: c :: d :: rest => (((a * 256 + b) * 256 + c) * 256 + d) :: bytesToWords rest
  | _ => []

/-- Big-endian bytes of a 32-bit word. -/
def wordToBytes (x : Nat) : List Nat :=
  [(x >>> 24) &&& 255, (x >>> 16) &&& 255, (x >>> 8) &&& 255, x &&& 255]

/-- Big-endian 8-byte encoding of a length in bits. -/
def natToBytes8 (n : Nat) : List Nat :=
  [(n >>> 56) &&& 255, (n >>> 48) &&& 255, (n >>> 40) &&& 255, (n >>> 32) &&& 255,
   (n >>> 24) &&& 255, (n >>> 16) &&& 255, (n >>> 8) &&& 255, n &&& 255]

/-- SHA-256 padding: append `0x80`, zero bytes to 56 mod 64, then the
bit length as 8 big-endian bytes. -/
def padMessage (msg : List Nat) : List Nat :=
  msg ++ 0x80 :: (List.replicate ((119 - msg.length % 64) % 64) 0 ++ natToBytes8 (8 * msg.length))

/-- `i`-th element of a word list, defaulting to 0. -/
def nthW (l : List Nat) (i : Nat) : Nat := l.getD i 0

/-- Extend the 16-word block schedule by `n` further words (FIPS 180-4 §6.2.2 step 1). -/
def schedExtend : List Nat → Nat → List Nat
  | ws, 0 => ws
  | ws, n + 1 =>
    let t := ws.length
    let x15 := nthW ws (t - 15)
    let x2 := nthW ws (t - 2)
    let s0 := rotr32 7 x15 ^^^ rotr32 18 x15 ^^^ (x15 >>> 3)
    let s1 := rotr32 17 x2 ^^^ rotr32 19 x2 ^^^ (x2 >>> 10)
    schedExtend (ws ++ [w32 (nthW ws (t - 16) + s0 + nthW ws (t - 7) + s1)]) n

/-- One SHA-256 compression round on the state `[a,b,c,d,e,f,g,h]`. -/
def compressStep (st : List Nat) (ki wi : Nat) : List Nat :=
  match st with
  | [a, b, c, d, e, f, g, h] =>
    let S1 := rotr32 6 e ^^^ rotr32 11 e ^^^ rotr32 25 e
    let ch := (e &&& f) ^^^ ((e ^^^ 4294967295) &&& g)
    let temp1 := w32 (h + S1 + ch + ki + wi)
    let S0 := rotr32 2 a ^^^ rotr32 13 a ^^^ rotr32 22 a
    let maj := (a &&& b) ^^^ (a &&& c) ^^^ (b &&& c)
    let temp2 := w32 (S0 + maj)
    [w32 (temp1 + temp2), a, b, c, w32 (d + temp1), e, f, g]
  | _ => st

/-- Process one 64-byte block into the running hash state. -/
def compressBlock (h : List Nat) (block : List Nat) : List Nat :=
  let ws := schedExtend (bytesToWords block) 48
  let st := (List.zip shaK ws).foldl (fun st kw => compressStep st kw.1 kw.2) h
  List.zipWith (fun x y => w32 (x + y)) h st

/-- Split a list into chunks of 64 elements. -/
def toBlocks (l : List Nat) : List (List Nat) :=
  if h : l = [] then []
  else (l.take 64) :: toBlocks (l.drop 64)
termination_by l.length
decreasing_by
  simp only [List.length_drop]
  have : 0 < l.length := List.length_pos.mpr h
  omega

/-- SHA-256 of a byte list, as a 32-byte list. -/
def sha256 (msg : List Nat) : List Nat :=
  let hFin := (toBlocks (padMessage msg)).foldl compressBlock shaH0
  hFin.foldr (fun w acc => wordToBytes w ++ acc) []

/-- HMAC-SHA256 (RFC 2104) over byte lists, block size 64. -/
def hmacSha256 (key msg : List Nat) : List Nat :=
  let k1 := if 64 < key.length then sha256 key else key
  let k2 := k1 ++ List.replicate (64 - k1.length) 0
  let ipadKey := k2.map (fun b => b ^^^ 0x36)
  let opadKey := k2.map (fun b => b ^^^ 0x5c)
  sha256 (opadKey ++ sha256 (ipadKey ++ msg))

/-! ### Standard base64 (RFC 4648) and UTF-8 -/

/-- The base64 alphabet. -/
def b64alpha : List Char :=
  "ABCDEFGHIJKLMNOPQRSTUVWXYZabcdefghijklmnopqrstuvwxyz0123456789+/".toList

/-- Character for a 6-bit group. -/
def b64char (i : Nat) : Char := b64alpha.getD i 'A'

/-- Standard base64 encoding of a byte list, as characters (with `=` padding). -/
def b64encodeChars : List Nat → List Char
  | [] => []
  | [a] => [b64char (a >>> 2), b64char ((a &&& 3) <<< 4), '=', '=']
  | [a, b] => [b64char (a >>> 2), b64char (((a &&& 3) <<< 4) ||| (b >>> 4)),
               b64char ((b &&& 15) <<< 2), '=']
  | a :: b :: c :: rest =>
    b64char (a >>> 2) :: b64char (((a &&& 3) <<< 4) ||| (b >>> 4)) ::
    b64char (((b &&& 15) <<< 2) ||| (c >>> 6)) :: b64char (c &&& 63) :: b64encodeChars rest

/-- Base64 encoding as a `String` (Python's `base64.standard_b64encode(...).decode()`). -/
def b64encodeString (bs : List Nat) : String := String.mk (b64encodeChars bs)

/-- Base64 encoding as ASCII bytes (Python's `base64.standard_b64encode` returns `bytes`). -/
def b64encodeBytes (bs : List Nat) : List Nat := (b64encodeChars bs).map Char.toNat

/-- UTF-8 bytes of a string (Python's `str.encode('utf-8')`). -/
def utf8Bytes (s : String) : List Nat := s.toUTF8.toList.map UInt8.toNat

/-! ### The signer (`ApexBalanceChecker._generate_signature`, src/apex.py lines 40-54) -/

/-- Embedding of `_generate_signature(timestamp, method, path, data)`:
`message = timestamp + method + path + data`; the key is the base64 encoding of
the UTF-8 secret; the result is the base64 of the HMAC-SHA256 digest. -/
def generate_signature (secret timestamp method path data : String) : String :=
  let message := timestamp ++ method ++ path ++ data
  let key := b64encodeBytes (utf8Bytes secret)
  let signature := hmacSha256 key (utf8Bytes message)
  b64encodeString signature

/-- The signing formula exactly as the specification states it:
`signature = base64_encode(HMAC_SHA256(base64_encode(secret_bytes),
timestamp ++ method ++ path ++ body))`, with no separators in the message. -/
def signatureSpecFormula (secret timestamp method path body : String) : String :=
  b64encodeString
    (hmacSha256 (b64encodeBytes (utf8Bytes secret))
      (utf8Bytes (timestamp ++ method ++ path ++ body)))

/-! ### Request building (`ApexBalanceChecker._make_request`, src/apex.py lines 56-96)

GET parameters are modelled as an association list `List (String × Option String)`
standing for the Python dict `params` (`none` values are Python `None`). A Python
dict has no duplicate keys, so theorems about dict inputs carry a `Nodup`
hypothesis on the key list. `sorted(params.items())` is a stable sort of the
items; for duplicate-free keys this is sorting by key, embedded here with
`List.insertionSort` (also stable). -/

/-- A GET parameter entry: key and (possibly `None`) value. -/
abbrev QParam := String × Option String

/-- `sorted(params.items())`: the items sorted by key. -/
def sortParams (l : List QParam) : List QParam :=
  List.insertionSort (fun a b : QParam => a.1 ≤ b.1) l

/-- Render one parameter as `f"{key}={value}"`, skipping `None` values. -/
def renderParam (p : QParam) : Option String :=
  p.2.map (fun v => p.1 ++ "=" ++ v)

/-- The `query_params` list of `_make_request`: sorted entries with non-`None`
values rendered as `key=value`. -/
def canonicalPairs (l : List QParam) : List String :=
  (sortParams l).filterMap renderParam

/-- `"&".join(query_params)`: the canonical query string. -/
def canonicalQuery (l : List QParam) : String :=
  String.intercalate "&" (canonicalPairs l)

/-- The `path` and `query_string` (the `data` argument of the signature)
computed by `_make_request` for a given method, endpoint and params. -/
def buildPathAndData (method endpoint : String) (params : Option (List QParam)) :
    String × String :=
  let path := "/v3" ++ endpoint
  match params with
  | some l =>
    if method = "GET" ∧ l ≠ [] then
      let qp := canonicalPairs l
      if qp ≠ [] then
        (path ++ "?" ++ String.intercalate "&" qp, "&" ++ String.intercalate "&" qp)
      else (path, "")
    else (path, "")
  | none => (path, "")

/-- The message string that `_make_request` passes to `_generate_signature`:
`timestamp + method + path + query_string`. -/
def signedMessage (method endpoint : String) (params : Option (List QParam))
    (timestamp : String) : String :=
  let pd := buildPathAndData method endpoint params
  timestamp ++ method ++ pd.1 ++ pd.2

/-! ### Transport outcomes (`_make_request`, src/apex.py lines 84-96)

The body of the `try` block is modelled by the outcome of the HTTP call:
either `requests.get`/`requests.post` raises a `RequestException`
(timeout, connection error, redirect loop, ...), or it returns a response
with a status code and a body. `response.raise_for_status()` raises
`requests.exceptions.HTTPError` exactly for status codes in 400-599;
`response.json()` raises `requests.exceptions.JSONDecodeError` (a
`RequestException`) when the body is not valid JSON, modelled by a `none`
body. Every `RequestException` is caught and turned into `{}`, modelled as
`none`. -/

/-- Outcome of the HTTP call performed inside the `try` block. -/
inductive TransportOutcome (α : Type) where
  | transportExc : TransportOutcome α
  | httpResponse (status : Nat) (body : Option α) : TransportOutcome α

/-- Result of `_make_request` as a function of the transport outcome:
`none` is the empty dict `{}`, `some v` is the parsed JSON body. -/
def requestResult {α : Type} (outcome : TransportOutcome α) : Option α :=
  match outcome with
  | .transportExc => none
  | .httpResponse status body =>
    if 400 ≤ status ∧ status < 600 then none
    else
      match body with
      | none => none
      | some v => some v

/-! ### Python `float(...)` on JSON field values

`calculate_total_balance` applies `float` to values read with
`wallet.get(field, 0)`. A missing field gives the default `0`
(`float(0) = 0.0`); a JSON number converts to its value; a string is parsed
as a decimal numeral and `float` raises `ValueError` when it does not parse.
The parser below accepts the decimal forms `[+-]? digits [. digits]?
[(e|E) [+-]? digits]?` (also `.digits`); the exotic Python spellings
(`inf`, `nan`, underscores, surrounding whitespace) are not modelled — no
claim depends on them. -/

/-- A JSON field value as it reaches `float(...)`: a string or a number. -/
inductive JVal where
  | jstr (s : String) : JVal
  | jnum (q : ℚ) : JVal
deriving DecidableEq

/-- Value of a digit list, most significant first. -/
def digitsVal (ds : List Char) : Nat :=
  ds.foldl (fun n c => 10 * n + (c.toNat - 48)) 0

/-- Decimal parsing of a string as Python's `float` does on ordinary decimal
numerals; `none` when `float` would raise `ValueError`. -/
def parseFloat? (s : String) : Option ℚ :=
  let cs := s.toList
  let sgncs : ℚ × List Char :=
    match cs with
    | '+' :: r => (1, r)
    | '-' :: r => (-1, r)
    | _ => (1, cs)
  let ip := sgncs.2.takeWhile Char.isDigit
  let cs2 := sgncs.2.dropWhile Char.isDigit
  let fpcs : List Char × List Char :=
    match cs2 with
    | '.' :: r => (r.takeWhile Char.isDigit, r.dropWhile Char.isDigit)
    | _ => ([], cs2)
  if ip.isEmpty ∧ fpcs.1.isEmpty then none
  else
    let mant : ℚ := (digitsVal (ip ++ fpcs.1) : ℚ) / (10 : ℚ) ^ fpcs.1.length
    match fpcs.2 with
    | [] => some (sgncs.1 * mant)
    | 'e' :: r | 'E' :: r =>
      let esgnr : Bool × List Char :=
        match r with
        | '+' :: r1 => (true, r1)
        | '-' :: r1 => (false, r1)
        | _ => (true, r)
      let ed := esgnr.2.takeWhile Char.isDigit
      let rest := esgnr.2.dropWhile Char.isDigit
      if ed.isEmpty ∨ ¬ rest.isEmpty then none
      else some (sgncs.1 * mant *
        (if esgnr.1 then (10 : ℚ) ^ digitsVal ed else 1 / (10 : ℚ) ^ digitsVal ed))
    | _ => none

/-- `float(wallet.get(field, 0))`: missing field defaults to `0`; a number is
its value; a string parses or raises `ValueError`. -/
def pyFloat (v : Option JVal) : Except String ℚ :=
  match v with
  | none => .ok 0
  | some (.jnum q) => .ok q
  | some (.jstr s) =>
    match parseFloat? s with
    | some q => .ok q
    | none => .error ("ValueError: could not convert string to float: " ++ s)

/-! ### Account data and the balance aggregator
(`ApexBalanceChecker.calculate_total_balance`, src/apex.py lines 106-212)

The aggregator is embedded as a function of the two already-fetched
responses (the network part is modelled separately by `requestResult`).
`none` for a response stands for the empty dict `{}` that `_make_request`
returns on failure (the falsy case of `if not account_data or not
balance_data`). The `result` dict's `timestamp` field (`datetime.now()`)
is ambient-time-dependent and carries no claim, so it is omitted from
`Report`. -/

/-- A spot wallet entry of `account_data["spotWallets"]`; each field may be
absent. -/
structure SpotWallet where
  tokenId : Option String
  balance : Option JVal
  pendingDepositAmount : Option JVal
  pendingWithdrawAmount : Option JVal
deriving DecidableEq

/-- A contract wallet entry of `account_data["contractWallets"]`. -/
structure ContractWallet where
  asset : Option String
  balance : Option JVal
  pendingDepositAmount : Option JVal
  pendingWithdrawAmount : Option JVal
deriving DecidableEq

/-- A position entry of `account_data["positions"]`. -/
structure Position where
  symbol : Option String
  side : Option String
  size : Option JVal
  entryPrice : Option JVal
deriving DecidableEq

/-- The fields of `account_data` that the aggregator reads; `none` models an
absent key (for which `.get(key, [])` yields `[]`). -/
structure AccountData where
  spotWallets : Option (List SpotWallet)
  contractWallets : Option (List ContractWallet)
  positions : Option (List Position)
deriving DecidableEq

/-- The fields of `balance_data` that the aggregator reads. -/
structure BalanceData where
  totalEquityValue : Option JVal
  availableBalance : Option JVal
  initialMargin : Option JVal
  maintenanceMargin : Option JVal
deriving DecidableEq

/-- A per-wallet record of `result["spot_balances"]` / `result["contract_balances"]`. -/
structure WalletRecord where
  balance : ℚ
  available : ℚ
  pending_deposit : ℚ
  pending_withdraw : ℚ
deriving DecidableEq

/-- An entry of `result["positions_summary"]`. -/
structure PositionInfo where
  symbol : String
  side : String
  size : ℚ
  entry_price : ℚ
  value : ℚ
deriving DecidableEq

/-- The aggregated report built by `calculate_total_balance` (its `result`
dict, minus the ambient `timestamp` field). The two balance dicts are
association lists in insertion order. -/
structure Report where
  spot_balances : List (String × WalletRecord)
  contract_balances : List (String × WalletRecord)
  total_equity : ℚ
  available_balance : ℚ
  initial_margin : ℚ
  maintenance_margin : ℚ
  positions_summary : List PositionInfo
  spot_total : ℚ
  contract_total : ℚ
  combined_liquid_assets : ℚ
deriving DecidableEq

/-- Python dict assignment `d[k] = v` on an association list: replace in
place if the key exists, else append. -/
def insertD {α : Type} (d : List (String × α)) (k : String) (v : α) :
    List (String × α) :=
  match d with
  | [] => [(k, v)]
  | q :: rest => if q.1 = k then (k, v) :: rest else q :: insertD rest k v

/-- The stablecoin token-id allow-list of the spot loop
(`if token in ["1", "17", "140"]`). -/
def allowList : List String := ["1", "17", "140"]

/-- The spot-wallet loop (src/apex.py lines 132-151): builds
`result["spot_balances"]` and `total_spot_value`. A `ValueError` from a
`float` conversion propagates as `.error`. -/
def procSpot : List SpotWallet → List (String × WalletRecord) × ℚ →
    Except String (List (String × WalletRecord) × ℚ)
  | [], acc => .ok acc
  | w :: rest, acc =>
    match pyFloat w.balance with
    | .error e => .error e
    | .ok balance =>
      match pyFloat w.pendingDepositAmount with
      | .error e => .error e
      | .ok pd =>
        match pyFloat w.pendingWithdrawAmount with
        | .error e => .error e
        | .ok pw =>
          let token := w.tokenId.getD "Unknown"
          let available := balance - pw + pd
          procSpot rest
            (insertD acc.1 token ⟨balance, available, pd, pw⟩,
             if token ∈ allowList then acc.2 + available else acc.2)

/-- The contract-wallet loop (src/apex.py lines 158-174): builds
`result["contract_balances"]` and `total_contract_value`; every asset
accumulates into the total. -/
def procContract : List ContractWallet → List (String × WalletRecord) × ℚ →
    Except String (List (String × WalletRecord) × ℚ)
  | [], acc => .ok acc
  | w :: rest, acc =>
    match pyFloat w.balance with
    | .error e => .error e
    | .ok balance =>
      match pyFloat w.pendingDepositAmount with
      | .error e => .error e
      | .ok pd =>
        match pyFloat w.pendingWithdrawAmount with
        | .error e => .error e
        | .ok pw =>
          let asset := w.asset.getD "Unknown"
          let available := balance - pw + pd
          procContract rest
            (insertD acc.1 asset ⟨balance, available, pd, pw⟩, acc.2 + available)

/-- The positions loop (src/apex.py lines 180-196): keeps positions of
non-zero size. `float(position.get("size", 0))` is evaluated in the guard,
so a malformed `size` raises before anything else; the body recomputes the
same value. -/
def procPositions : List Position → Except String (List PositionInfo)
  | [] => .ok []
  | p :: rest =>
    match pyFloat p.size with
    | .error e => .error e
    | .ok size =>
      if size ≠ 0 then
        match pyFloat p.entryPrice with
        | .error e => .error e
        | .ok ep =>
          match procPositions rest with
          | .error e => .error e
          | .ok tail =>
            .ok (⟨p.symbol.getD "Unknown", p.side.getD "Unknown", size, ep, size * ep⟩ :: tail)
      else procPositions rest

/-- Embedding of `calculate_total_balance` after the two responses have been
fetched. `.ok none` models the early `return {}` when either response is
empty; `.error` models an uncaught `ValueError` from a `float` conversion. -/
def calculate_total_balance (account_data : Option AccountData)
    (balance_data : Option BalanceData) : Except String (Option Report) :=
  match account_data, balance_data with
  | none, _ => .ok none
  | _, none => .ok none
  | some ad, some bd =>
    match procSpot (ad.spotWallets.getD []) ([], 0) with
    | .error e => .error e
    | .ok (sb, st) =>
      match procContract (ad.contractWallets.getD []) ([], 0) with
      | .error e => .error e
      | .ok (cb, ct) =>
        match procPositions (ad.positions.getD []) with
        | .error e => .error e
        | .ok ps =>
          match pyFloat bd.totalEquityValue with
          | .error e => .error e
          | .ok te =>
            match pyFloat bd.availableBalance with
            | .error e => .error e
            | .ok avb =>
              match pyFloat bd.initialMargin with
              | .error e => .error e
              | .ok im =>
                match pyFloat bd.maintenanceMargin with
                | .error e => .error e
                | .ok mm =>
                  .ok (some ⟨sb, cb, te, avb, im, mm, ps, st, ct, st + ct⟩)

/-! ### The deposit-flow account poll loop (src/deposit.py lines 40-52)

`lookup k` is the value returned by the `(k+1)`-th call of
`client.get_account_v3()` (`none` is Python `None`). The `time.sleep(6)`
and the progress print have no effect on control flow and are not
modelled. -/

/-- The `while account is None and attempt < max_attempts` loop. The result
is the final `account` together with the final value of `attempt`, which
equals the number of lookup calls made when started from `attempt = 0`. -/
def pollAccount {α : Type} (lookup : Nat → Option α) (maxAttempts attempt : Nat)
    (account : Option α) : Option α × Nat :=
  match account with
  | some a => (some a, attempt)
  | none =>
    if attempt < maxAttempts then
      pollAccount lookup maxAttempts (attempt + 1) (lookup attempt)
    else (none, attempt)
termination_by maxAttempts - attempt

/-- The poll phase of the deposit flow: run the loop with
`max_attempts = 20` from `account = None, attempt = 0`; raise `ValueError`
if the account is still `None`, otherwise proceed with the account (and the
number of attempts used). -/
def depositPoll {α : Type} (lookup : Nat → Option α) : Except String (α × Nat) :=
  match pollAccount lookup 20 0 none with
  | (some a, att) => .ok (a, att)
  | (none, _) =>
    .error "Failed to fetch account after 20 attempts. Ensure registration is complete and keys are valid."

/-- Specification-side description of `total_spot_value` (for the refinement
claim about the allow-list): the sum of `balance - pending_withdraw +
pending_deposit` over exactly those spot wallets whose token id lies in
`allowList`, with the same `float`-conversion failures as the code. -/
def spotTotalSpec : List SpotWallet → Except String ℚ
  | [] => .ok 0
  | w :: rest =>
    match pyFloat w.balance with
    | .error e => .error e
    | .ok balance =>
      match pyFloat w.pendingDepositAmount with
      | .error e => .error e
      | .ok pd =>
        match pyFloat w.pendingWithdrawAmount with
        | .error e => .error e
        | .ok pw =>
          match spotTotalSpec rest with
          | .error e => .error e
          | .ok s =>
            .ok (if w.tokenId.getD "Unknown" ∈ allowList then (balance - pw + pd) + s else s)

/-- Decidable equality for `Except`, so the embedding can be evaluated at
concrete inputs. -/
instance {ε α : Type} [DecidableEq ε] [DecidableEq α] : DecidableEq (Except ε α) :=
  fun x y =>
    match x, y with
    | .error a, .error b =>
      if h : a = b then .isTrue (h ▸ rfl) else .isFalse (fun hc => h (Except.error.inj hc))
    | .ok a, .ok b =>
      if h : a = b then .isTrue (h ▸ rfl) else .isFalse (fun hc => h (Except.ok.inj hc))
    | .error _, .ok _ => .isFalse (fun hc => Except.noConfusion hc)
    | .ok _, .error _ => .isFalse (fun hc => Except.noConfusion hc)

/-- The by-key comparison used by `sortParams` is total. -/
instance : IsTotal QParam (fun a b : QParam => a.1 ≤ b.1) :=
  ⟨fun a b => le_total a.1 b.1⟩

/-- The by-key comparison used by `sortParams` is transitive. -/
instance : IsTrans QParam (fun a b : QParam => a.1 ≤ b.1) :=
  ⟨fun _ _ _ h1 h2 => le_trans h1 h2⟩

/-- The strict by-key comparison is (vacuously) antisymmetric. -/
instance : IsAntisymm QParam (fun a b : QParam => a.1 < b.1) :=
  ⟨fun _ _ h1 h2 => absurd h1 (lt_asymm h2)⟩

/-! ### Claim theorems -/

/-- C1: for every secret, timestamp, method, path and body string, the signer
returns `base64_encode(HMAC_SHA256(base64_encode(secret_bytes),
timestamp ++ method ++ path ++ body))` with no separators between the
concatenated parts, and the result is deterministic: the same input tuple
always produces the same signature string. -/
theorem signer_matches_spec_formula :
    ∀ secret timestamp method path body : String,
      generate_signature secret timestamp method path body =
        signatureSpecFormula secret timestamp method path body ∧
      (∀ secret2 timestamp2 method2 path2 body2 : String,
        (secret, timestamp, method, path, body) =
          (secret2, timestamp2, method2, path2, body2) →
        generate_signature secret timestamp method path body =
          generate_signature secret2 timestamp2 method2 path2 body2) := by
  intro s t m p b
  refine ⟨rfl, ?_⟩
  intro s2 t2 m2 p2 b2 h
  cases h
  rfl

/-- Witness for C1 at a concrete input tuple. -/
theorem signer_matches_spec_formula_witness :
    generate_signature "mysecret" "1700000000000" "GET" "/v3/account" "" =
      signatureSpecFormula "mysecret" "1700000000000" "GET" "/v3/account" "" ∧
    generate_signature "mysecret" "1700000000000" "GET" "/v3/account" "" =
      generate_signature "mysecret" "1700000000000" "GET" "/v3/account" "" :=
  ⟨(signer_matches_spec_formula "mysecret" "1700000000000" "GET" "/v3/account" "").1,
   (signer_matches_spec_formula "mysecret" "1700000000000" "GET" "/v3/account" "").2
     "mysecret" "1700000000000" "GET" "/v3/account" "" rfl⟩

/-- C8: if either the account data or the balance data input to aggregation is
empty/missing (the falsy `{}` that `_make_request` returns on failure,
modelled by `none`), aggregation returns the empty report `{}` (`.ok none`)
without raising; in particular with empty account data it returns the empty
report and does not raise. -/
theorem aggregation_empty_inputs :
    ∀ (bd : Option BalanceData) (ad : Option AccountData),
      calculate_total_balance none bd = .ok none ∧
      calculate_total_balance ad none = .ok none := by
  intro bd ad
  constructor
  · cases bd <;> rfl
  · cases ad <;> rfl

/-- C10: for every POST request, the signature is computed over
`timestamp ++ method ++ path` with an empty data component; the JSON request
body serialized from the params is never part of the signed message,
regardless of the params. -/
theorem post_body_never_signed :
    ∀ (endpoint : String) (params : Option (List QParam)) (timestamp : String),
      (buildPathAndData "POST" endpoint params).2 = "" ∧
      signedMessage "POST" endpoint params timestamp =
        timestamp ++ "POST" ++ ("/v3" ++ endpoint) := by
  intro e ps ts
  have hne : ¬ (("POST" : String) = "GET" ∧ ps.getD [] ≠ []) := by
    intro h
    exact absurd h.1 (by decide)
  cases ps with
  | none =>
    exact ⟨rfl, by simp [signedMessage, buildPathAndData, String.append_empty]⟩
  | some l =>
    constructor
    · simp only [buildPathAndData]
      rw [if_neg (fun h => absurd h.1 (by decide))]
    · simp only [signedMessage, buildPathAndData]
      rw [if_neg (fun h => absurd h.1 (by decide))]
      simp [String.append_empty]

/-- Counterexample to C5 as stated: a non-2xx status need not yield an empty
result. `response.raise_for_status()` raises only for 4xx/5xx, so a 304
response whose body parses as JSON is returned as-is: the request client
returns the parsed body, not the empty result. -/
theorem request_non2xx_counterexample :
    requestResult (TransportOutcome.httpResponse 304 (some 42)) = some 42 ∧
    requestResult (TransportOutcome.httpResponse 304 (some 42)) ≠ (none : Option Nat) := by
  constructor
  · rfl
  · decide

/-- C5 (amended): on a raised transport exception (timeout, connection error,
redirect failure) or on a 4xx/5xx status, `_make_request` returns the empty
result `{}` (`none`); it never raises to its caller (the embedding
`requestResult` is a total function into `Option`). Statuses outside
400-599 are not treated as failures. -/
theorem request_failures_return_empty :
    ∀ (α : Type) (status : Nat) (body : Option α),
      requestResult (TransportOutcome.transportExc : TransportOutcome α) = none ∧
      (400 ≤ status → status < 600 →
        requestResult (TransportOutcome.httpResponse status body) = none) := by
  intro α st b
  refine ⟨rfl, fun h1 h2 => ?_⟩
  simp only [requestResult]
  rw [if_pos ⟨h1, h2⟩]

/-- Witness for the amended C5 at a concrete 503 response. -/
theorem request_failures_return_empty_witness :
    requestResult (TransportOutcome.httpResponse 503 (some 1)) = (none : Option Nat) :=
  (request_failures_return_empty Nat 503 (some 1)).2 (by decide) (by decide)

/-! ### Poll-loop lemmas (shared helpers, C9) -/

/-- If every remaining lookup is empty, the loop runs to the bound. -/
theorem pollAccount_all_none {α : Type} (lookup : Nat → Option α) (m : Nat) :
    ∀ (n j : Nat), m = j + n → (∀ i, j ≤ i → i < m → lookup i = none) →
      pollAccount lookup m j none = (none, m) := by
  intro n
  induction n with
  | zero =>
    intro j hm _
    rw [pollAccount]
    simp [hm]
  | succ n ih =>
    intro j hm hnone
    rw [pollAccount]
    have hj : j < m := by omega
    rw [if_pos hj, hnone j le_rfl hj]
    exact ih (j + 1) (by omega) (fun i h1 h2 => hnone i (by omega) h2)

/-- If the first success is at index `k < m` (all earlier lookups empty), the
loop stops right after that call, with `attempt = k + 1`. -/
theorem pollAccount_first_some {α : Type} (lookup : Nat → Option α) (m : Nat) (a : α) :
    ∀ (n j k : Nat), k = j + n → k < m → (∀ i, j ≤ i → i < k → lookup i = none) →
      lookup k = some a → pollAccount lookup m j none = (some a, k + 1) := by
  intro n
  induction n with
  | zero =>
    intro j k hk hkm _ hs
    have hjk : j = k := by omega
    subst hjk
    rw [pollAccount, if_pos hkm, hs, pollAccount]
  | succ n ih =>
    intro j k hk hkm hnone hs
    have hj : j < m := by omega
    rw [pollAccount, if_pos hj, hnone j le_rfl (by omega)]
    exact ih (j + 1) k (by omega) hkm (fun i h1 h2 => hnone i (by omega) h2) hs

/-- C9: in the deposit flow's account poll loop, if the lookup always returns
empty the loop performs exactly 20 attempts and then raises a fatal error;
if the lookup first returns a non-empty value on the `(j+1)`-th attempt with
`j < 20`, the loop stops with `attempt = j + 1 ≤ 20` and proceeds to the
deposit step with that account. -/
theorem deposit_poll_bound :
    ∀ (α : Type) (lookup : Nat → Option α),
      ((∀ k, lookup k = none) →
        pollAccount lookup 20 0 none = (none, 20) ∧
        depositPoll lookup =
          .error "Failed to fetch account after 20 attempts. Ensure registration is complete and keys are valid.") ∧
      (∀ (j : Nat) (a : α), j < 20 → (∀ i, i < j → lookup i = none) →
        lookup j = some a →
        pollAccount lookup 20 0 none = (some a, j + 1) ∧
        depositPoll lookup = .ok (a, j + 1)) := by
  intro α lookup
  constructor
  · intro hnone
    have h20 : pollAccount lookup 20 0 none = (none, 20) :=
      pollAccount_all_none lookup 20 20 0 rfl (fun i _ _ => hnone i)
    exact ⟨h20, by rw [depositPoll, h20]⟩
  · intro j a hj hnone hs
    have hfind : pollAccount lookup 20 0 none = (some a, j + 1) :=
      pollAccount_first_some lookup 20 a j 0 j (by omega) hj
        (fun i _ h2 => hnone i h2) hs
    exact ⟨hfind, by rw [depositPoll, hfind]⟩

/-- Witness for C9: an always-empty lookup exhausts all 20 attempts and
raises; a lookup that first succeeds on the 5th attempt stops there. -/
theorem deposit_poll_bound_witness :
    (pollAccount (fun _ => (none : Option Nat)) 20 0 none = (none, 20) ∧
      depositPoll (fun _ => (none : Option Nat)) =
        .error "Failed to fetch account after 20 attempts. Ensure registration is complete and keys are valid.") ∧
    (pollAccount (fun k => if k = 4 then some 7 else none) 20 0 none = (some 7, 5) ∧
      depositPoll (fun k => if k = 4 then some 7 else none) = .ok (7, 5)) :=
  ⟨(deposit_poll_bound Nat (fun _ => none)).1 (fun _ => rfl),
   (deposit_poll_bound Nat (fun k => if k = 4 then some 7 else none)).2 4 7
     (by decide) (by decide) (by decide)⟩

/-! ### Association-list (dict) lemmas -/

/-- Every member of `insertD d k v` is either the new pair or a member of `d`. -/
theorem mem_insertD {α : Type} {p : String × α} :
    ∀ {d : List (String × α)} {k : String} {v : α},
      p ∈ insertD d k v → p = (k, v) ∨ p ∈ d := by
  intro d
  induction d with
  | nil =>
    intro k v h
    simp only [insertD, List.mem_singleton] at h
    exact Or.inl h
  | cons q rest ih =>
    intro k v h
    simp only [insertD] at h
    by_cases hq : q.1 = k
    · rw [if_pos hq] at h
      rcases List.mem_cons.mp h with h1 | h2
      · exact Or.inl h1
      · exact Or.inr (List.mem_cons_of_mem q h2)
    · rw [if_neg hq] at h
      rcases List.mem_cons.mp h with h1 | h2
      · exact Or.inr (h1 ▸ List.mem_cons_self q rest)
      · rcases ih h2 with h3 | h4
        · exact Or.inl h3
        · exact Or.inr (List.mem_cons_of_mem q h4)

/-- The inserted key is a key of `insertD d k v`. -/
theorem keys_insertD_self {α : Type} :
    ∀ (d : List (String × α)) (k : String) (v : α),
      k ∈ (insertD d k v).map Prod.fst := by
  intro d
  induction d with
  | nil => intro k v; simp [insertD]
  | cons q rest ih =>
    intro k v
    simp only [insertD]
    by_cases hq : q.1 = k
    · rw [if_pos hq]; simp
    · rw [if_neg hq]
      simp only [List.map_cons, List.mem_cons]
      exact Or.inr (ih k v)

/-- Insertion preserves the existing keys. -/
theorem keys_insertD_mono {α : Type} :
    ∀ (d : List (String × α)) (k' k : String) (v : α),
      k' ∈ d.map Prod.fst → k' ∈ (insertD d k v).map Prod.fst := by
  intro d
  induction d with
  | nil => intro k' k v h; simp at h
  | cons q rest ih =>
    intro k' k v h
    simp only [List.map_cons, List.mem_cons] at h
    simp only [insertD]
    by_cases hq : q.1 = k
    · rw [if_pos hq]
      simp only [List.map_cons, List.mem_cons]
      rcases h with h1 | h2
      · exact Or.inl (h1.trans hq)
      · exact Or.inr h2
    · rw [if_neg hq]
      simp only [List.map_cons, List.mem_cons]
      rcases h with h1 | h2
      · exact Or.inl h1
      · exact Or.inr (ih k' k v h2)

/-! ### Step equations for the aggregation loops -/

/-- Successful step of the spot loop. -/
theorem procSpot_cons_ok (w : SpotWallet) (rest : List SpotWallet)
    (acc : List (String × WalletRecord) × ℚ) (b pd pw : ℚ)
    (hb : pyFloat w.balance = .ok b) (hpd : pyFloat w.pendingDepositAmount = .ok pd)
    (hpw : pyFloat w.pendingWithdrawAmount = .ok pw) :
    procSpot (w :: rest) acc =
      procSpot rest
        (insertD acc.1 (w.tokenId.getD "Unknown") ⟨b, b - pw + pd, pd, pw⟩,
         if w.tokenId.getD "Unknown" ∈ allowList then acc.2 + (b - pw + pd) else acc.2) := by
  simp only [procSpot, hb, hpd, hpw]

/-- A `ValueError` on the balance field aborts the spot loop. -/
theorem procSpot_cons_errB (w : SpotWallet) (rest : List SpotWallet)
    (acc : List (String × WalletRecord) × ℚ) (e : String)
    (hb : pyFloat w.balance = .error e) :
    procSpot (w :: rest) acc = .error e := by
  simp only [procSpot, hb]

/-- Successful step of the contract loop. -/
theorem procContract_cons_ok (w : ContractWallet) (rest : List ContractWallet)
    (acc : List (String × WalletRecord) × ℚ) (b pd pw : ℚ)
    (hb : pyFloat w.balance = .ok b) (hpd : pyFloat w.pendingDepositAmount = .ok pd)
    (hpw : pyFloat w.pendingWithdrawAmount = .ok pw) :
    procContract (w :: rest) acc =
      procContract rest
        (insertD acc.1 (w.asset.getD "Unknown") ⟨b, b - pw + pd, pd, pw⟩,
         acc.2 + (b - pw + pd)) := by
  simp only [procContract, hb, hpd, hpw]

/-! ### Invariant lemmas for the aggregation loops -/

/-- Every record the spot loop adds satisfies
`available = balance - pending_withdraw + pending_deposit`. -/
theorem procSpot_records_inv :
    ∀ (ws : List SpotWallet) (acc out : List (String × WalletRecord) × ℚ),
      procSpot ws acc = .ok out →
      (∀ p ∈ acc.1, p.2.available = p.2.balance - p.2.pending_withdraw + p.2.pending_deposit) →
      ∀ p ∈ out.1, p.2.available = p.2.balance - p.2.pending_withdraw + p.2.pending_deposit := by
  intro ws
  induction ws with
  | nil =>
    intro acc out h hacc
    simp only [procSpot, Except.ok.injEq] at h
    exact h ▸ hacc
  | cons w rest ih =>
    intro acc out h hacc
    cases hb : pyFloat w.balance with
    | error e => rw [procSpot_cons_errB w rest acc e hb] at h; exact Except.noConfusion h
    | ok b =>
      cases hpd : pyFloat w.pendingDepositAmount with
      | error e =>
        simp only [procSpot, hb, hpd] at h
        exact Except.noConfusion h
      | ok pd =>
        cases hpw : pyFloat w.pendingWithdrawAmount with
        | error e =>
          simp only [procSpot, hb, hpd, hpw] at h
          exact Except.noConfusion h
        | ok pw =>
          rw [procSpot_cons_ok w rest acc b pd pw hb hpd hpw] at h
          refine ih _ _ h ?_
          intro p hp
          rcases mem_insertD hp with h1 | h2
          · subst h1; rfl
          · exact hacc p h2

/-- Every record the contract loop adds satisfies
`available = balance - pending_withdraw + pending_deposit`. -/
theorem procContract_records_inv :
    ∀ (ws : List ContractWallet) (acc out : List (String × WalletRecord) × ℚ),
      procContract ws acc = .ok out →
      (∀ p ∈ acc.1, p.2.available = p.2.balance - p.2.pending_withdraw + p.2.pending_deposit) →
      ∀ p ∈ out.1, p.2.available = p.2.balance - p.2.pending_withdraw + p.2.pending_deposit := by
  intro ws
  induction ws with
  | nil =>
    intro acc out h hacc
    simp only [procContract, Except.ok.injEq] at h
    exact h ▸ hacc
  | cons w rest ih =>
    intro acc out h hacc
    cases hb : pyFloat w.balance with
    | error e =>
      simp only [procContract, hb] at h
      exact Except.noConfusion h
    | ok b =>
      cases hpd : pyFloat w.pendingDepositAmount with
      | error e =>
        simp only [procContract, hb, hpd] at h
        exact Except.noConfusion h
      | ok pd =>
        cases hpw : pyFloat w.pendingWithdrawAmount with
        | error e =>
          simp only [procContract, hb, hpd, hpw] at h
          exact Except.noConfusion h
        | ok pw =>
          rw [procContract_cons_ok w rest acc b pd pw hb hpd hpw] at h
          refine ih _ _ h ?_
          intro p hp
          rcases mem_insertD hp with h1 | h2
          · subst h1; rfl
          · exact hacc p h2

/-- The spot loop's running total grows by exactly the allow-listed available
amounts: relative to the starting total `t`, it computes `spotTotalSpec`. -/
theorem procSpot_total :
    ∀ (ws : List SpotWallet) (d : List (String × WalletRecord)) (t : ℚ)
      (out : List (String × WalletRecord) × ℚ),
      procSpot ws (d, t) = .ok out → spotTotalSpec ws = .ok (out.2 - t) := by
  intro ws
  induction ws with
  | nil =>
    intro d t out h
    simp only [procSpot, Except.ok.injEq] at h
    subst h
    simp [spotTotalSpec]
  | cons w rest ih =>
    intro d t out h
    cases hb : pyFloat w.balance with
    | error e =>
      rw [procSpot_cons_errB w rest (d, t) e hb] at h
      exact Except.noConfusion h
    | ok b =>
      cases hpd : pyFloat w.pendingDepositAmount with
      | error e =>
        simp only [procSpot, hb, hpd] at h
        exact Except.noConfusion h
      | ok pd =>
        cases hpw : pyFloat w.pendingWithdrawAmount with
        | error e =>
          simp only [procSpot, hb, hpd, hpw] at h
          exact Except.noConfusion h
        | ok pw =>
          rw [procSpot_cons_ok w rest (d, t) b pd pw hb hpd hpw] at h
          by_cases hc : w.tokenId.getD "Unknown" ∈ allowList
          · rw [if_pos hc] at h
            have hrest := ih _ _ _ h
            simp only [spotTotalSpec, hb, hpd, hpw, hrest, if_pos hc, Except.ok.injEq]
            ring
          · rw [if_neg hc] at h
            have hrest := ih _ _ _ h
            simp only [spotTotalSpec, hb, hpd, hpw, hrest, if_neg hc]

/-- The spot loop records every wallet's token id as a key and only adds keys. -/
theorem procSpot_keys :
    ∀ (ws : List SpotWallet) (d : List (String × WalletRecord)) (t : ℚ)
      (out : List (String × WalletRecord) × ℚ),
      procSpot ws (d, t) = .ok out →
      (∀ k, k ∈ d.map Prod.fst → k ∈ out.1.map Prod.fst) ∧
      (∀ w ∈ ws, (w.tokenId.getD "Unknown") ∈ out.1.map Prod.fst) := by
  intro ws
  induction ws with
  | nil =>
    intro d t out h
    simp only [procSpot, Except.ok.injEq] at h
    subst h
    exact ⟨fun _ hk => hk, fun w hw => absurd hw (List.not_mem_nil w)⟩
  | cons w rest ih =>
    intro d t out h
    cases hb : pyFloat w.balance with
    | error e =>
      rw [procSpot_cons_errB w rest (d, t) e hb] at h
      exact Except.noConfusion h
    | ok b =>
      cases hpd : pyFloat w.pendingDepositAmount with
      | error e =>
        simp only [procSpot, hb, hpd] at h
        exact Except.noConfusion h
      | ok pd =>
        cases hpw : pyFloat w.pendingWithdrawAmount with
        | error e =>
          simp only [procSpot, hb, hpd, hpw] at h
          exact Except.noConfusion h
        | ok pw =>
          rw [procSpot_cons_ok w rest (d, t) b pd pw hb hpd hpw] at h
          obtain ⟨mono, hws⟩ := ih _ _ _ h
          constructor
          · intro k hk
            exact mono k (keys_insertD_mono d k (w.tokenId.getD "Unknown") _ hk)
          · intro w2 hw2
            rcases List.mem_cons.mp hw2 with h1 | h2
            · subst h1
              exact mono _ (keys_insertD_self d _ _)
            · exact hws w2 h2

/-- Destructuring a successful aggregation: the spot and contract loops
succeeded and produced exactly the report's balance dicts and totals. -/
theorem calculate_ok_elim :
    ∀ (ad : AccountData) (bd : BalanceData) (r : Report),
      calculate_total_balance (some ad) (some bd) = .ok (some r) →
      procSpot (ad.spotWallets.getD []) ([], 0) = .ok (r.spot_balances, r.spot_total) ∧
      procContract (ad.contractWallets.getD []) ([], 0) =
        .ok (r.contract_balances, r.contract_total) := by
  intro ad bd r h
  simp only [calculate_total_balance] at h
  cases hs : procSpot (ad.spotWallets.getD []) ([], 0) with
  | error e =>
    simp only [hs] at h
    exact Except.noConfusion h
  | ok p =>
    obtain ⟨sb, st⟩ := p
    rw [hs] at h
    cases hc : procContract (ad.contractWallets.getD []) ([], 0) with
    | error e =>
    simp only [hc] at h
    exact Except.noConfusion h
    | ok q =>
      obtain ⟨cb, ct⟩ := q
      rw [hc] at h
      cases hp : procPositions (ad.positions.getD []) with
      | error e =>
    simp only [hp] at h
    exact Except.noConfusion h
      | ok ps =>
        rw [hp] at h
        cases hte : pyFloat bd.totalEquityValue with
        | error e =>
    simp only [hte] at h
    exact Except.noConfusion h
        | ok te =>
          rw [hte] at h
          cases hav : pyFloat bd.availableBalance with
          | error e =>
    simp only [hav] at h
    exact Except.noConfusion h
          | ok avb =>
            rw [hav] at h
            cases him : pyFloat bd.initialMargin with
            | error e =>
    simp only [him] at h
    exact Except.noConfusion h
            | ok im =>
              rw [him] at h
              cases hm2 : pyFloat bd.maintenanceMargin with
              | error e =>
    simp only [hm2] at h
    exact Except.noConfusion h
              | ok mm =>
                rw [hm2] at h
                simp only [Except.ok.injEq, Option.some.injEq] at h
                subst h
                exact ⟨rfl, rfl⟩

/-- C6: every wallet record (spot or contract) in the aggregated report
satisfies `available = balance - pending_withdraw + pending_deposit`; and the
concrete spot wallet `{tokenId: "1", balance: "100.5", pendingDepositAmount:
"0", pendingWithdrawAmount: "10"}` aggregates to `available = 90.5` with
`spot_total = 90.5`. -/
theorem report_available_formula :
    (∀ (ad : AccountData) (bd : BalanceData) (r : Report),
        calculate_total_balance (some ad) (some bd) = .ok (some r) →
        (∀ p ∈ r.spot_balances,
          p.2.available = p.2.balance - p.2.pending_withdraw + p.2.pending_deposit) ∧
        (∀ p ∈ r.contract_balances,
          p.2.available = p.2.balance - p.2.pending_withdraw + p.2.pending_deposit)) ∧
    calculate_total_balance
        (some ⟨some [⟨some "1", some (.jstr "100.5"), some (.jstr "0"), some (.jstr "10")⟩],
               some [], some []⟩)
        (some ⟨none, none, none, none⟩) =
      .ok (some ⟨[("1", ⟨100.5, 90.5, 0, 10⟩)], [], 0, 0, 0, 0, [], 90.5, 0, 90.5⟩) := by
  constructor
  · intro ad bd r h
    obtain ⟨hs, hc⟩ := calculate_ok_elim ad bd r h
    constructor
    · exact procSpot_records_inv _ _ _ hs (by intro p hp; simp at hp)
    · exact procContract_records_inv _ _ _ hc (by intro p hp; simp at hp)
  · with_unfolding_all rfl

/-- Witness for C6: the invariant instantiated at the concrete report record
produced for the example wallet. -/
theorem report_available_formula_witness :
    (WalletRecord.mk 100.5 90.5 0 10).available =
      (WalletRecord.mk 100.5 90.5 0 10).balance -
        (WalletRecord.mk 100.5 90.5 0 10).pending_withdraw +
        (WalletRecord.mk 100.5 90.5 0 10).pending_deposit :=
  (report_available_formula.1
    ⟨some [⟨some "1", some (.jstr "100.5"), some (.jstr "0"), some (.jstr "10")⟩],
     some [], some []⟩
    ⟨none, none, none, none⟩
    ⟨[("1", ⟨100.5, 90.5, 0, 10⟩)], [], 0, 0, 0, 0, [], 90.5, 0, 90.5⟩
    (by with_unfolding_all rfl)).1 ("1", ⟨100.5, 90.5, 0, 10⟩) (by simp)

/-- C7: in every successful aggregation, `spot_total` is exactly the sum of
`available` over the wallets whose token id is in the fixed allow-list
`{"1","17","140"}` (so a wallet outside the allow-list never contributes),
while every spot wallet's token id — allow-listed or not — appears as a key
of `spot_balances`. -/
theorem spot_total_allowlist :
    ∀ (ad : AccountData) (bd : BalanceData) (r : Report),
      calculate_total_balance (some ad) (some bd) = .ok (some r) →
      spotTotalSpec (ad.spotWallets.getD []) = .ok r.spot_total ∧
      ∀ w ∈ ad.spotWallets.getD [],
        (w.tokenId.getD "Unknown") ∈ r.spot_balances.map Prod.fst := by
  intro ad bd r h
  obtain ⟨hs, _⟩ := calculate_ok_elim ad bd r h
  constructor
  · have ht := procSpot_total _ _ _ _ hs
    simpa using ht
  · exact (procSpot_keys _ _ _ _ hs).2

/-- Witness for C7: an account with a non-allow-listed token "99" (balance 5)
and an allow-listed token "17" (balance 3); the spot total counts only the
latter, yet "99" is a key of the spot balances. -/
theorem spot_total_allowlist_witness :
    spotTotalSpec
        [⟨some "99", some (.jstr "5"), none, none⟩, ⟨some "17", some (.jnum 3), none, none⟩] =
      .ok 3 ∧
    ("99" : String) ∈
      ([("99", ⟨5, 5, 0, 0⟩), ("17", ⟨3, 3, 0, 0⟩)] :
        List (String × WalletRecord)).map Prod.fst :=
  ⟨(spot_total_allowlist
      ⟨some [⟨some "99", some (.jstr "5"), none, none⟩,
             ⟨some "17", some (.jnum 3), none, none⟩], some [], some []⟩
      ⟨none, none, none, none⟩
      ⟨[("99", ⟨5, 5, 0, 0⟩), ("17", ⟨3, 3, 0, 0⟩)], [], 0, 0, 0, 0, [], 3, 0, 3⟩
      (by with_unfolding_all rfl)).1,
   (spot_total_allowlist
      ⟨some [⟨some "99", some (.jstr "5"), none, none⟩,
             ⟨some "17", some (.jnum 3), none, none⟩], some [], some []⟩
      ⟨none, none, none, none⟩
      ⟨[("99", ⟨5, 5, 0, 0⟩), ("17", ⟨3, 3, 0, 0⟩)], [], 0, 0, 0, 0, [], 3, 0, 3⟩
      (by with_unfolding_all rfl)).2
     ⟨some "99", some (.jstr "5"), none, none⟩ (by simp)⟩

/-- Counterexample to C4 as stated: a malformed (non-numeric) balance field
does not default to 0 — `float("abc")` raises `ValueError`, which
`calculate_total_balance` does not catch, so aggregation fails fatally. -/
theorem malformed_field_raises :
    calculate_total_balance
        (some ⟨some [⟨some "1", some (.jstr "abc"), none, none⟩], some [], some []⟩)
        (some ⟨none, none, none, none⟩) =
      .error "ValueError: could not convert string to float: abc" := by
  with_unfolding_all rfl

/-- C4 (amended): a missing balance / pendingDepositAmount /
pendingWithdrawAmount field defaults to 0 in the aggregated report rather
than raising, but a malformed (non-numeric) string in such a field raises a
`ValueError` that aggregation does not catch. -/
theorem missing_fields_default_zero :
    (∀ (w : SpotWallet) (acc : List (String × WalletRecord) × ℚ),
        w.balance = none → w.pendingDepositAmount = none →
        w.pendingWithdrawAmount = none →
        procSpot [w] acc =
          .ok (insertD acc.1 (w.tokenId.getD "Unknown") ⟨0, 0, 0, 0⟩, acc.2)) ∧
    (∀ (s : String), parseFloat? s = none →
      ∀ (tok : Option String) (pd pw : Option JVal) (rest : List SpotWallet)
        (acc : List (String × WalletRecord) × ℚ),
        procSpot (⟨tok, some (.jstr s), pd, pw⟩ :: rest) acc =
          .error ("ValueError: could not convert string to float: " ++ s)) := by
  constructor
  · intro w acc hb hpd hpw
    rw [procSpot_cons_ok w [] acc 0 0 0 (by rw [hb]; rfl) (by rw [hpd]; rfl)
      (by rw [hpw]; rfl)]
    simp [procSpot, sub_zero, add_zero]
  · intro s hs tok pd pw rest acc
    exact procSpot_cons_errB _ _ _ _ (by simp [pyFloat, hs])

/-- Witness for the amended C4: a wallet with all numeric fields absent
contributes a zero record; a wallet with balance "abc" aborts the loop. -/
theorem missing_fields_default_zero_witness :
    procSpot [⟨some "1", none, none, none⟩] ([], 0) =
      .ok ([("1", ⟨0, 0, 0, 0⟩)], 0) ∧
    procSpot [⟨some "1", some (.jstr "abc"), none, none⟩] ([], 0) =
      .error "ValueError: could not convert string to float: abc" :=
  ⟨missing_fields_default_zero.1 ⟨some "1", none, none, none⟩ ([], 0) rfl rfl rfl,
   missing_fields_default_zero.2 "abc" (by with_unfolding_all rfl) (some "1") none none [] ([], 0)⟩

/-! ### Canonical-query lemmas (C2, C3) -/

/-- Distinct keys in a parameter list give a pairwise key-disequality. -/
theorem pairwise_keys_ne {l : List QParam} (h : (l.map Prod.fst).Nodup) :
    l.Pairwise (fun a b : QParam => a.1 ≠ b.1) :=
  (List.pairwise_map).mp h

/-- A by-key sorted list with pairwise-distinct keys is strictly sorted. -/
theorem sorted_strict_of_ne {s : List QParam}
    (hs : List.Sorted (fun a b : QParam => a.1 ≤ b.1) s)
    (hn : s.Pairwise (fun a b : QParam => a.1 ≠ b.1)) :
    List.Sorted (fun a b : QParam => a.1 < b.1) s :=
  (hs.and hn).imp (fun h => lt_of_le_of_ne h.1 h.2)

/-- On parameter lists with duplicate-free keys, `sortParams` depends only on
the underlying set of entries: permuted inputs sort identically. -/
theorem sortParams_perm_eq {l1 l2 : List QParam}
    (hn : (l1.map Prod.fst).Nodup) (hp : l1.Perm l2) :
    sortParams l1 = sortParams l2 := by
  have hsymm : ∀ {x y : QParam}, x.1 ≠ y.1 → y.1 ≠ x.1 := fun h he => h he.symm
  have hperm : (sortParams l1).Perm (sortParams l2) :=
    ((List.perm_insertionSort _ l1).trans hp).trans (List.perm_insertionSort _ l2).symm
  have hne1 : (sortParams l1).Pairwise (fun a b : QParam => a.1 ≠ b.1) :=
    ((List.perm_insertionSort _ l1).pairwise_iff hsymm).mpr (pairwise_keys_ne hn)
  have hne2 : (sortParams l2).Pairwise (fun a b : QParam => a.1 ≠ b.1) :=
    ((List.perm_insertionSort _ l2).pairwise_iff hsymm).mpr
      ((hp.pairwise_iff hsymm).mp (pairwise_keys_ne hn))
  exact List.eq_of_perm_of_sorted hperm
    (sorted_strict_of_ne (List.sorted_insertionSort _ l1) hne1)
    (sorted_strict_of_ne (List.sorted_insertionSort _ l2) hne2)

/-- On duplicate-free keys, sorting commutes with dropping the `None`-valued
entries. -/
theorem sortParams_filter {l : List QParam} (hn : (l.map Prod.fst).Nodup) :
    sortParams (l.filter (fun p => p.2.isSome)) =
      (sortParams l).filter (fun p => p.2.isSome) := by
  have hsymm : ∀ {x y : QParam}, x.1 ≠ y.1 → y.1 ≠ x.1 := fun h he => h he.symm
  have hperm : (sortParams (l.filter (fun p => p.2.isSome))).Perm
      ((sortParams l).filter (fun p => p.2.isSome)) :=
    (List.perm_insertionSort _ _).trans ((List.perm_insertionSort _ l).filter _).symm
  have hne1 : (sortParams (l.filter (fun p => p.2.isSome))).Pairwise
      (fun a b : QParam => a.1 ≠ b.1) :=
    ((List.perm_insertionSort _ _).pairwise_iff hsymm).mpr
      (List.Pairwise.sublist (List.filter_sublist l) (pairwise_keys_ne hn))
  have hne2 : ((sortParams l).filter (fun p => p.2.isSome)).Pairwise
      (fun a b : QParam => a.1 ≠ b.1) :=
    List.Pairwise.sublist (List.filter_sublist (sortParams l))
      (((List.perm_insertionSort _ l).pairwise_iff hsymm).mpr (pairwise_keys_ne hn))
  have hs2 : List.Sorted (fun a b : QParam => a.1 ≤ b.1)
      ((sortParams l).filter (fun p => p.2.isSome)) :=
    List.Pairwise.sublist (List.filter_sublist (sortParams l)) (List.sorted_insertionSort _ l)
  exact List.eq_of_perm_of_sorted hperm
    (sorted_strict_of_ne (List.sorted_insertionSort _ _) hne1)
    (sorted_strict_of_ne hs2 hne2)

/-- Rendering skips exactly the `None`-valued entries. -/
theorem filterMap_render_filter :
    ∀ (s : List QParam),
      s.filterMap renderParam =
        (s.filter (fun p => p.2.isSome)).filterMap renderParam := by
  intro s
  induction s with
  | nil => rfl
  | cons p rest ih =>
    cases hv : p.2 with
    | none =>
      simp only [List.filterMap_cons, List.filter_cons, renderParam, hv, Option.map_none,
        Option.isSome_none, Bool.false_eq_true, if_false]
      exact ih
    | some v =>
      simp only [List.filterMap_cons, List.filter_cons, renderParam, hv, Option.map_some,
        Option.isSome_some, if_true]
      rw [ih]

/-- C2: the canonicalized query string renders the entries sorted by key as
`k=v` joined by `&`, omits entries whose value is null/absent entirely, and
is independent of the input order of the parameters (for duplicate-free
keys, as in a Python dict). -/
theorem canonical_query_properties :
    ∀ (l1 l2 : List QParam), (l1.map Prod.fst).Nodup →
      canonicalQuery l1 = canonicalQuery (l1.filter (fun p => p.2.isSome)) ∧
      (l1.Perm l2 → canonicalQuery l1 = canonicalQuery l2) := by
  intro l1 l2 hn
  constructor
  · unfold canonicalQuery canonicalPairs
    rw [sortParams_filter hn, ← filterMap_render_filter]
  · intro hp
    unfold canonicalQuery canonicalPairs
    rw [sortParams_perm_eq hn hp]

/-- Witness for C2 at concrete parameter lists (a `None`-valued key `c` and a
permuted copy). -/
theorem canonical_query_properties_witness :
    canonicalQuery [("b", some "2"), ("a", some "1"), ("c", none)] =
      canonicalQuery
        ([("b", some "2"), ("a", some "1"), ("c", none)].filter
          (fun p => p.2.isSome)) ∧
    canonicalQuery [("b", some "2"), ("a", some "1"), ("c", none)] =
      canonicalQuery [("c", none), ("a", some "1"), ("b", some "2")] :=
  have h := canonical_query_properties
    [("b", some "2"), ("a", some "1"), ("c", none)]
    [("c", none), ("a", some "1"), ("b", some "2")] (by decide)
  ⟨h.1, h.2 (by decide)⟩

/-- C3: for every GET request whose canonical query string `qs` is non-empty,
the signed message is `timestamp ++ "GET" ++ "/v3" ++ endpoint ++ "?" ++ qs
++ "&" ++ qs`: the canonical string occurs twice, once in the path and once
as the data component. -/
theorem get_signed_message_duplicates_query :
    ∀ (endpoint : String) (l : List QParam) (timestamp : String),
      canonicalQuery l ≠ "" →
      signedMessage "GET" endpoint (some l) timestamp =
        timestamp ++ "GET" ++ "/v3" ++ endpoint ++ "?" ++ canonicalQuery l ++ "&" ++
          canonicalQuery l := by
  intro e l ts h
  have hqp : canonicalPairs l ≠ [] := by
    intro hc
    apply h
    unfold canonicalQuery
    rw [hc]
    rfl
  have hl : l ≠ [] := by
    intro hle
    apply hqp
    subst hle
    rfl
  simp only [signedMessage, buildPathAndData]
  rw [if_pos ⟨trivial, hl⟩, if_pos hqp]
  simp only [canonicalQuery, String.append_assoc]

/-- Witness for C3 at a concrete GET request. -/
theorem get_signed_message_duplicates_query_witness :
    signedMessage "GET" "/account" (some [("a", some "1")]) "123" =
      "123" ++ "GET" ++ "/v3" ++ "/account" ++ "?" ++
        canonicalQuery [("a", some "1")] ++ "&" ++
        canonicalQuery [("a", some "1")] :=
  get_signed_message_duplicates_query "/account" [("a", some "1")]
    "123" (by decide)
